import Mathlib

/-!
# Verification of the `agent_engine` orchestration core

This file gives a shallow embedding, in Lean 4, of the orchestration core of
the `engine` repository (`src/agent_engine/agent/…`): the data model
(`schemas.py`), the task state (`state.py`), the memory (`memory.py`, whose
`agent_engine` copy is absent from the source tree; its fields and operations
follow the `src/agent/memory.py` copy together with the spec's §3 description
of the per-subtask trace), the subtask executor and its self-check
(`executor.py`), the outer loop of `core.py`, the plan scoring and selection
of `planner.py`, and the persistence tool (`tools/save_output.py`).

Modelling conventions:
* Python dicts with string keys are modelled as association lists
  (`List (String × _)`) with first-match lookup and replace-or-append insert.
* Python exceptions are modelled with `Except String`: a tool is a function
  `Payload → Except String Output`, and `Except.error msg` models a raised
  exception whose `str(exc)` is `msg`.
* Timestamps (`utils.utc_now_iso()`) are elided: scratchpad notes and history
  entries keep every field except the timestamp, which no property below
  mentions.
* Tool functions and the prompt rewriter are injectable in the source
  (`Executor.__init__(tool_registry=…, prompt_rewriter=…)`); they appear here
  as parameters (`ExecEnv`), so theorems quantify over them.
-/

namespace AgentEngine

/-! ## String helpers (character-level models of the Python string operations) -/

/-- The single-quote character used by Python `repr` of strings. -/
def sq : String := String.singleton (Char.ofNat 39)

/-- `repr` of a Python string as used in f-string `!r` conversions
(quote escaping elided: the ids involved contain no quotes). -/
def pyRepr (s : String) : String := sq ++ s ++ sq

/-- `pat` is a leading segment of `s` (character lists). -/
def charsStart : List Char → List Char → Bool
  | [], _ => true
  | _ :: _, [] => false
  | a :: as, b :: bs => a == b && charsStart as bs

/-- Python `s.startswith(pat)`. -/
def strStarts (s pat : String) : Bool := charsStart pat.data s.data

/-- Does `pat` occur as a contiguous segment of the character list? -/
def charsHasSub (pat : List Char) : List Char → Bool
  | [] => charsStart pat []
  | c :: rest => charsStart pat (c :: rest) || charsHasSub pat rest

/-- Python `pat in s` (substring containment). -/
def hasSubstr (s pat : String) : Bool := charsHasSub pat.data s.data

/-- Python `text.lower()` (ASCII, which is all the router's keywords need). -/
def strLower (s : String) : String := ⟨s.data.map Char.toLower⟩

/-- The characters after the last `#`, i.e. Python `k.split("#")[-1]`
(the whole string when there is no `#`): scan the reversed character list. -/
def revTakeUntilHash : List Char → List Char
  | [] => []
  | c :: rest => if c = '#' then [] else c :: revTakeUntilHash rest

/-- Python `k.split("#")[-1]`. -/
def afterLastHash (k : String) : String :=
  ⟨(revTakeUntilHash k.data.reverse).reverse⟩

/-- Python `s.isdigit()` for ASCII decimal strings. -/
def isDigits (s : String) : Bool :=
  s ≠ "" && s.data.all (fun c => 48 ≤ c.toNat && c.toNat ≤ 57)

/-- Python `int(s)` on a digit string. -/
def strToNat (s : String) : Nat :=
  s.data.foldl (fun a c => a * 10 + (c.toNat - 48)) 0

/-- The decimal digit character for `d < 10`. -/
def digitChar (d : Nat) : Char := Char.ofNat (48 + d)

/-- Decimal rendering of a natural number, as Python's `f"{n}"` produces. -/
def natReprChars (n : Nat) : List Char :=
  if _h : n < 10 then [digitChar n]
  else natReprChars (n / 10) ++ [digitChar (n % 10)]
  decreasing_by
    exact Nat.div_lt_self (Nat.pos_of_ne_zero (by omega)) (by omega)

/-- Decimal rendering of a natural number as a string. -/
def natRepr (n : Nat) : String := ⟨natReprChars n⟩

/-- Python `max(xs)` for a nonempty list of naturals (head as seed). -/
def pyMaxNat : List Nat → Nat
  | [] => 0
  | x :: xs => xs.foldl max x

/-! ## Association-list model of Python dicts -/

/-- Python `d[k] = v`: replace the binding in place, or append a fresh one. -/
def dictInsert {α : Type} : List (String × α) → String → α → List (String × α)
  | [], k, v => [(k, v)]
  | (k0, v0) :: rest, k, v =>
      if k0 = k then (k, v) :: rest else (k0, v0) :: dictInsert rest k v

/-- Python `d.get(k)`. -/
def dictGet {α : Type} : List (String × α) → String → Option α
  | [], _ => none
  | (k0, v0) :: rest, k => if k0 = k then some v0 else dictGet rest k

/-- Python `k in d`. -/
def dictHasKey {α : Type} (d : List (String × α)) (k : String) : Bool :=
  (dictGet d k).isSome

/-- Python `list(d.keys())` (insertion order, as our lists maintain). -/
def dictKeys {α : Type} (d : List (String × α)) : List String := d.map (·.1)

/-! ## Python values (the `Any` in tool output dicts) -/

/-- A JSON-like Python value as appears in tool payloads and outputs. -/
inductive PyVal : Type where
  | str (s : String)
  | bool (b : Bool)
  | int (i : Int)
  | listV (xs : List PyVal)
  | dictV (fields : List (String × PyVal))
  | noneV

/-- Python truthiness `bool(v)`. -/
def pyTruthy : PyVal → Bool
  | .str s => s ≠ ""
  | .bool b => b
  | .int i => i ≠ 0
  | .listV xs => !xs.isEmpty
  | .dictV fs => !fs.isEmpty
  | .noneV => false

/-- Python `len(v)` for sized values. -/
def pyLen : PyVal → Option Nat
  | .str s => some s.length
  | .listV xs => some xs.length
  | .dictV fs => some fs.length
  | _ => none

/-- Python `str(v)` for scalar values; container reprs keep Python's
bracketed shape with elements elided (no property below inspects them —
`self_check` applies `str` only to the generation tool's `"text"` field,
which is a string in every flow considered). -/
def pyStr : PyVal → String
  | .str s => s
  | .bool b => if b then "True" else "False"
  | .int i => toString i
  | .listV _ => "[…]"
  | .dictV _ => "\x7b…\x7d"
  | .noneV => "None"

/-- A tool output dict (`Dict[str, Any]`). -/
def Output : Type := List (String × PyVal)

/-! ## Data model (`schemas.py`) -/

/-- `ToolName` (a `str` enum in the source). -/
inductive ToolName : Type where
  | generate_text
  | search_in_files
  | modify_data
  | save_output
deriving DecidableEq

/-- The `.value` of a `ToolName` member (its lowercase string identifier). -/
def ToolName.value : ToolName → String
  | .generate_text => "generate_text"
  | .search_in_files => "search_in_files"
  | .modify_data => "modify_data"
  | .save_output => "save_output"

/-- `Subtask` dataclass. -/
structure Subtask : Type where
  id : String
  description : String
  tool : ToolName
  dependencies : List String := []
  success_criteria : String := ""
  deliverable : String := ""
deriving DecidableEq

/-- `TaskPlan` dataclass. -/
structure TaskPlan : Type where
  task : String
  subtasks : List Subtask
deriving DecidableEq

/-- `SubtaskStatus` enum. -/
inductive SubtaskStatus : Type where
  | pending
  | running
  | succeeded
  | failed
deriving DecidableEq

/-- `SubtaskResult` dataclass. -/
structure SubtaskResult : Type where
  subtask_id : String
  status : SubtaskStatus
  output : Output := []
  error : Option String := none

/-- `unknown = [d for d in s.dependencies if d not in known_ids]` in
`validate_task_plan`'s dependency walk. -/
def unknownOf (known_ids : List String) (s : Subtask) : List String :=
  s.dependencies.filter (fun d => !known_ids.contains d)

/-- `validate_task_plan`'s dependency walk, split out for structural
recursion: walking subtasks in order, raise on the first subtask with a
dependency outside the id set, naming it and its unknown dependency ids. -/
def findUnknownDeps : List Subtask → List String → Except String Unit
  | [], _ => .ok ()
  | s :: rest, known_ids =>
      if (unknownOf known_ids s).isEmpty then findUnknownDeps rest known_ids
      else .error
        ("Subtask " ++ pyRepr s.id ++ " has unknown dependencies: " ++
          String.intercalate ", " (unknownOf known_ids s))

/-- `validate_task_plan(plan)`, with `raise ValueError(msg)` modelled as
`Except.error msg`: subtask count in 5..15, distinct ids (checked via the
number of distinct ids, as the Python `len(set(ids))`), then the dependency
walk of `findUnknownDeps`. -/
def validate_task_plan (plan : TaskPlan) : Except String Unit :=
  let num := plan.subtasks.length
  if ¬(5 ≤ num ∧ num ≤ 15) then
    .error s!"TaskPlan must have between 5 and 15 subtasks, got {num}."
  else
    let ids := plan.subtasks.map (·.id)
    if ids.length ≠ ids.dedup.length then .error "Subtask IDs must be unique."
    else findUnknownDeps plan.subtasks ids

/-! ## Memory (`memory.py`, plus the spec §3 per-subtask trace) -/

/-- One entry of `Memory.history` (timestamp elided). -/
structure HistoryEntry : Type where
  subtask_id : String
  status : SubtaskStatus
  error : Option String

/-- A typed trace event (`record_trace` payloads built by the executor;
timestamps elided, the remaining fields are the ones the executor stores). -/
inductive TraceEvent : Type where
  | thought (content : String)
  | action (tool : ToolName) (payload_preview : List (String × String))
  | observation (tool : ToolName) (output_preview : List String)
  | critique (content : String) (success : Bool) (retry : Bool)

/-- `Memory` dataclass.  The `traces` field models the spec §3 "append-only
per-subtask trace of typed events"; the `agent_engine` copy of `memory.py`
is absent from the source tree, so `record_trace` is modelled from the spec
while the remaining fields and operations follow `src/agent/memory.py`. -/
structure Memory : Type where
  current_subtask_id : Option String := none
  tool_outputs : List (String × Output) := []
  scratchpad : List String := []
  history : List HistoryEntry := []
  traces : List (String × TraceEvent) := []

/-- `Memory.add_note` (timestamp prefix elided). -/
def Memory.add_note (m : Memory) (text : String) : Memory :=
  { m with scratchpad := m.scratchpad ++ [text] }

/-- `Memory.record_result`. -/
def Memory.record_result (m : Memory) (subtask_id : String)
    (r : SubtaskResult) : Memory :=
  { m with
    tool_outputs := dictInsert m.tool_outputs subtask_id r.output
    history := m.history ++ [⟨subtask_id, r.status, r.error⟩] }

/-- Modelled from the spec: `Memory.record_trace` appends one typed event to
the per-subtask trace (the `agent_engine` `memory.py` is not under `src/`). -/
def Memory.record_trace (m : Memory) (subtask_id : String)
    (ev : TraceEvent) : Memory :=
  { m with traces := m.traces ++ [(subtask_id, ev)] }

/-! ## Task state (`state.py`) -/

/-- `TaskStatus` enum (the source's `PARTIAL_SUCCESS` member, whose `.value`
is the string `"partial_success"`). -/
inductive TaskStatus : Type where
  | not_started
  | running
  | succeeded
  | partialSuccess
  | failed
deriving DecidableEq

/-- One entry of the `"replans"` metadata list. -/
structure ReplanEvent : Type where
  reason : String
  recovery_subtasks : List String

/-- `TaskState` dataclass.  The free-form `metadata` dict is projected onto
the two keys the core loop reads and writes (`"replans"`,
`"started_subtasks"`); start/finish timestamps and the `"simplified_task"`
entry are elided (no claim mentions them). -/
structure TaskState : Type where
  task_description : Option String := none
  status : TaskStatus := .not_started
  plan : Option TaskPlan := none
  subtask_results : List SubtaskResult := []
  metadata_replans : List ReplanEvent := []
  metadata_started : List String := []

/-- `TaskState.start_task`. -/
def TaskState.start_task (st : TaskState) (task_description : String) :
    TaskState :=
  { st with task_description := some task_description, status := .running }

/-- `TaskState.set_plan`. -/
def TaskState.set_plan (st : TaskState) (plan : TaskPlan) : TaskState :=
  { st with plan := some plan }

/-- `TaskState.start_subtask` (appends to the `"started_subtasks"` metadata
list; the per-entry timestamp is elided). -/
def TaskState.start_subtask (st : TaskState) (sub : Subtask) : TaskState :=
  { st with metadata_started := st.metadata_started ++ [sub.id] }

/-- `TaskState.finish_subtask`. -/
def TaskState.finish_subtask (st : TaskState) (_subtask_id : String)
    (result : SubtaskResult) : TaskState :=
  { st with subtask_results := st.subtask_results ++ [result] }

/-- `TaskState.finish_task`: derive the overall status from the recorded
subtask results (`finished_at` elided). -/
def TaskState.finish_task (st : TaskState) : TaskState :=
  if st.subtask_results.isEmpty then { st with status := .failed }
  else
    let any_failed := st.subtask_results.any (fun r => r.status = .failed)
    if any_failed then
      let any_succeeded :=
        st.subtask_results.any (fun r => r.status = .succeeded)
      if any_succeeded then { st with status := .partialSuccess }
      else { st with status := .failed }
    else { st with status := .succeeded }

/-! ## Executor (`executor.py`) -/

/-- `CheckResult` dataclass. -/
structure CheckResult : Type where
  success : Bool
  retry : Bool
  reasoning : String
deriving DecidableEq

/-- The payload content dict built for the persistence tool. -/
structure PayloadContent : Type where
  task : Option String
  subtask_id : String
  plan_summary : List String
  optimized_description : String

/-- The payload dict built by `Executor._build_payload`: the base keys are
always present, the remaining keys only for the matching tool category. -/
structure Payload : Type where
  task : Option String
  subtask_id : String
  description : String
  previous_outputs : List (String × Output)
  prompt : Option String := none
  query : Option String := none
  data : Option (String × List (String × Output)) := none
  label : Option String := none
  content : Option PayloadContent := none

/-- A tool: a function from payload to output that may raise
(`Except.error msg` models an exception with `str(exc) = msg`). -/
def ToolFn : Type := Payload → Except String Output

/-- The executor's injectable collaborators: the tool registry
(`tool_registry`, a mapping from `ToolName` to implementation) and the
prompt rewriter (`prompt_rewriter.rewrite`). -/
structure ExecEnv : Type where
  registry : ToolName → Option ToolFn
  rewriter : Subtask → ToolName → Memory → TaskState → String

/-- `ToolRouter.choose_tool`: the declared tool when registered, else a
keyword classification of the lowercased description. -/
def choose_tool (registry : ToolName → Option ToolFn) (sub : Subtask)
    (_memory : Memory) (_state : TaskState) : ToolName :=
  if (registry sub.tool).isSome then sub.tool
  else
    let desc := strLower sub.description
    if hasSubstr desc "search" || hasSubstr desc "lookup" then
      .search_in_files
    else if hasSubstr desc "save" || hasSubstr desc "store" then
      .save_output
    else if hasSubstr desc "modify" || hasSubstr desc "transform" ||
        hasSubstr desc "refine" then
      .modify_data
    else .generate_text

/-- `ToolRouter.choose_fallback`: only search falls back, to generation. -/
def choose_fallback (original_tool : ToolName) (_sub : Subtask)
    (_memory : Memory) (_state : TaskState) : Option ToolName :=
  if original_tool = .search_in_files then some .generate_text else none

/-- `Executor.self_check`: tool-specific deterministic verdict on the raw
output, keyed (as in the source) on `subtask.tool`. -/
def self_check (sub : Subtask) (tool_output : Output) : CheckResult :=
  match sub.tool with
  | .generate_text =>
      let text := pyStr ((dictGet tool_output "text").getD (.str ""))
      let success := text ≠ "" && hasSubstr text "Generated:"
      let reasoning :=
        if success then "Output contains generated text."
        else "Missing or empty generated text."
      ⟨success, false, reasoning⟩
  | .search_in_files =>
      -- `results = tool_output.get("results") or []`, then `len(results) > 0`
      let rv := (dictGet tool_output "results").getD .noneV
      let rv := if pyTruthy rv then rv else .listV []
      let success := (pyLen rv).getD 0 > 0
      let reasoning :=
        if success then "Found mock search results."
        else "No search results were returned."
      ⟨success, !success, reasoning⟩
  | .modify_data =>
      let success :=
        match dictGet tool_output "summary" with
        | some (.str s) => hasSubstr s "Modified data"
        | _ => false
      let reasoning :=
        if success then "Summary of modified data present."
        else "Summary of modifications missing."
      ⟨success, false, reasoning⟩
  | .save_output =>
      let stored := pyTruthy ((dictGet tool_output "stored").getD .noneV)
      let success := stored && dictHasKey tool_output "key"
      let reasoning :=
        if success then "Output stored with a key."
        else "Output was not confirmed as stored."
      ⟨success, false, reasoning⟩

/-- `Executor._build_payload` (the rewritten prompt, when non-empty, replaces
the raw description in the prompt/query-bearing fields). -/
def build_payload (st : TaskState) (mem : Memory) (sub : Subtask)
    (tool_name : ToolName) (rewritten_prompt : Option String) : Payload :=
  let effective_prompt :=
    match rewritten_prompt with
    | some s => if s = "" then sub.description else s
    | none => sub.description
  let base : Payload :=
    { task := st.task_description
      subtask_id := sub.id
      description := sub.description
      previous_outputs := mem.tool_outputs }
  match tool_name with
  | .generate_text => { base with prompt := some effective_prompt }
  | .search_in_files => { base with query := some effective_prompt }
  | .modify_data =>
      { base with data := some (effective_prompt, mem.tool_outputs) }
  | .save_output =>
      { base with
        label := some sub.id
        content := some
          { task := st.task_description
            subtask_id := sub.id
            plan_summary :=
              (match st.plan with
               | some p => p.subtasks.map (·.id)
               | none => [])
            optimized_description := effective_prompt } }

/-- The redacted payload preview recorded in the "action" trace event
(the payload entries whose key is `prompt`, `query` or `label`, in the
payload's insertion order). -/
def payload_preview (p : Payload) : List (String × String) :=
  (match p.prompt with | some v => [("prompt", v)] | none => []) ++
  (match p.query with | some v => [("query", v)] | none => []) ++
  (match p.label with | some v => [("label", v)] | none => [])

/-- `Executor._update_after_execution`: push the result into state
(`finish_subtask`) and memory (`record_result`), plus the self-check note
when a check was run. -/
def update_after_execution (mem : Memory) (st : TaskState) (sub : Subtask)
    (result : SubtaskResult) (check : Option CheckResult) :
    Memory × TaskState :=
  let st := st.finish_subtask sub.id result
  let mem := mem.record_result sub.id result
  let mem :=
    match check with
    | some c =>
        let successStr := if c.success then "True" else "False"
        let retryStr := if c.retry then "True" else "False"
        mem.add_note
          (s!"Self-check for {sub.id}: success={successStr}, " ++
           s!"retry={retryStr}. Reasoning: {c.reasoning}")
    | none => mem
  (mem, st)

/-- The outcome of one `execute_subtask` call, instrumented with `entries`
(how many times the procedure body was entered: 1, or 2 after the single
self-retry) and `fallbackInvoked` (whether the fallback branch called a
fallback tool). -/
structure ExecOut : Type where
  result : SubtaskResult
  mem : Memory
  st : TaskState
  entries : Nat
  fallbackInvoked : Bool

/-- One pass of the body of `Executor.execute_subtask`, with the recursive
retry call (`self.execute_subtask(subtask, allow_retry=False)`) abstracted
as the continuation `retryK`.  Every statement follows the source order:
thought trace, registry miss, prompt rewriting, payload, action trace, tool
invocation (exception short-circuit), observation trace, self-check,
critique-and-retry, fallback block, and the unconditional final
`status = FAILED` / `error = "Self-check failed: …"` assignments that close
the failed-check branch. -/
def execAttempt (env : ExecEnv) (sub : Subtask) (allowRetry : Bool)
    (retryK : Memory → TaskState → ExecOut) (mem : Memory) (st : TaskState) :
    ExecOut :=
  let tool_name := choose_tool env.registry sub mem st
  let mem := mem.record_trace sub.id
    (.thought s!"Decide which tool to use for subtask {sub.id}: {sub.description}")
  match env.registry tool_name with
  | none =>
      let toolValue := tool_name.value
      let reasoning := s!"No tool registered for {pyRepr toolValue}."
      let mem := mem.add_note reasoning
      let result : SubtaskResult :=
        ⟨sub.id, .failed, [], some reasoning⟩
      let (mem, st) := update_after_execution mem st sub result none
      ⟨result, mem, st, 1, false⟩
  | some tool =>
      let rewritten_prompt := env.rewriter sub tool_name mem st
      let promptLen := rewritten_prompt.length
      let mem := mem.add_note s!"Rewritten prompt for {sub.id} ({promptLen} chars)"
      let payload := build_payload st mem sub tool_name (some rewritten_prompt)
      let mem := mem.record_trace sub.id
        (.action tool_name (payload_preview payload))
      match tool payload with
      | .error exc =>
          let declaredValue := sub.tool.value
          let error_msg := s!"Tool {declaredValue} raised error: {exc}"
          let mem := mem.add_note error_msg
          let result : SubtaskResult := ⟨sub.id, .failed, [], some exc⟩
          let (mem, st) := update_after_execution mem st sub result none
          ⟨result, mem, st, 1, false⟩
      | .ok output =>
          let mem := mem.record_trace sub.id
            (.observation tool_name (dictKeys output))
          let provisional : SubtaskResult := ⟨sub.id, .succeeded, output, none⟩
          let check := self_check sub output
          if check.success then
            let (mem, st) :=
              update_after_execution mem st sub provisional (some check)
            ⟨provisional, mem, st, 1, false⟩
          else
            let retryStr := if check.retry then "True" else "False"
            let mem := mem.add_note
              (s!"Self-check failed for {sub.id}: {check.reasoning} " ++
               s!"(retry={retryStr})")
            let mem := mem.record_trace sub.id
              (.critique check.reasoning check.success check.retry)
            if allowRetry && check.retry then
              let out := retryK mem st
              { out with entries := out.entries + 1 }
            else
              let fallback_tool := choose_fallback tool_name sub mem st
              let (provisional, check, mem, fbInvoked) :=
                match fallback_tool with
                | some fb =>
                    if allowRetry then
                      match env.registry fb with
                      | some fallback_fn =>
                          let fbValue := fb.value
                          let mem := mem.add_note
                            s!"Routing to fallback tool {fbValue} for subtask {sub.id}."
                          let fallback_payload :=
                            build_payload st mem sub fb none
                          (match fallback_fn fallback_payload with
                           | .error exc =>
                               ({ provisional with
                                  status := .failed
                                  error := some s!"Fallback tool error: {exc}" },
                                check, mem, true)
                           | .ok fb_output =>
                               let mem := mem.record_trace sub.id
                                 (.observation fb (dictKeys fb_output))
                               let provisional :=
                                 { provisional with output := fb_output }
                               let fb_check :=
                                 self_check { sub with tool := fb } fb_output
                               if fb_check.success then
                                 ({ provisional with
                                    status := .succeeded, error := none },
                                  fb_check, mem, true)
                               else (provisional, check, mem, true))
                      | none => (provisional, check, mem, false)
                    else (provisional, check, mem, false)
                | none => (provisional, check, mem, false)
              let final :=
                { provisional with
                  status := .failed
                  error := some s!"Self-check failed: {check.reasoning}" }
              let (mem, st) :=
                update_after_execution mem st sub final (some check)
              ⟨final, mem, st, 1, fbInvoked⟩

/-- A continuation that is never invoked: the retry branch requires
`allowRetry = true`, and this continuation is only installed on the
`allowRetry = false` attempt (`execAttempt_false_retryK_irrelevant` below
proves the attempt ignores it). -/
def deadRetry (sub : Subtask) : Memory → TaskState → ExecOut :=
  fun mem st => ⟨⟨sub.id, .failed, [], none⟩, mem, st, 1, false⟩

/-- `Executor.execute_subtask`: an attempt whose retry continuation is the
`allow_retry=False` attempt, mirroring the source's single self-recursion. -/
def execute_subtask (env : ExecEnv) (sub : Subtask) (allowRetry : Bool)
    (mem : Memory) (st : TaskState) : ExecOut :=
  execAttempt env sub allowRetry
    (execAttempt env sub false (deadRetry sub)) mem st

/-! ## Planner (`planner.py`): replanning, scoring, selection -/

/-- `Planner.replan`: `None` when no task has been started (Python's
falsiness of `state.task_description` covers both `None` and `""`),
otherwise the fixed two-step recovery plan. -/
def planner_replan (st : TaskState) (_memory : Memory) : Option TaskPlan :=
  match st.task_description with
  | none => none
  | some d =>
      if d = "" then none
      else some
        { task := "Recovery for: " ++ d
          subtasks :=
            [ { id := "replan-1"
                description := "Analyse previous failures and missing information."
                tool := .generate_text
                dependencies := []
                success_criteria := "Summarises what went wrong and what is missing."
                deliverable := "Short diagnostic note." },
              { id := "replan-2"
                description := "Save updated recommendations to storage."
                tool := .save_output
                dependencies := ["replan-1"]
                success_criteria := "Recommendations are stored and referenced by a key."
                deliverable := "Storage key for updated recommendations." } ] }

/-- `Planner._score_plan`.  `tools` models the Python set
`{s.tool for s in plan.subtasks}`; list membership agrees with set
membership. -/
def score_plan (plan : TaskPlan) : Nat :=
  let tools := plan.subtasks.map (·.tool)
  let score := 0
  let score := if tools.contains .search_in_files then score + 2 else score
  let score := if tools.contains .save_output then score + 2 else score
  score + min plan.subtasks.length 10

/-- Python `max(scored, key=lambda x: x[0])`: fold over the tail with the
head as the current best, replacing only on a strictly larger key, so the
first maximal element wins. -/
def pyMaxByFst : (Nat × TaskPlan) → List (Nat × TaskPlan) → Nat × TaskPlan
  | best, [] => best
  | best, x :: xs => pyMaxByFst (if x.1 > best.1 then x else best) xs

/-- `Planner._select_best_plan`: raise on an empty candidate list, else the
stable maximum of the scored candidates. -/
def select_best_plan (candidates : List TaskPlan) : Except String TaskPlan :=
  match candidates with
  | [] => .error "No candidate plans generated."
  | p :: ps =>
      .ok (pyMaxByFst (score_plan p, p)
        (ps.map (fun q => (score_plan q, q)))).2

/-! ## Agent core outer loop (`core.py`, `run_task` step 2)

The `while i < len(plan.subtasks)` walk with the `replans_done` counter is
split by the counter's value (it only ever moves from 0 to 1):
`runLoopReplanned` is the walk once a replan has happened, `runLoop` the walk
before; appending recovery subtasks to the live list is the suffix append in
the `runLoopReplanned` call. -/

/-- One iteration's prelude: `state.start_subtask`, set
`memory.current_subtask_id`, and the "Planning to execute" note. -/
def loopPrelude (sub : Subtask) (mem : Memory) (st : TaskState) :
    Memory × TaskState :=
  let st := st.start_subtask sub
  let mem := { mem with current_subtask_id := some sub.id }
  let mem := mem.add_note ("Planning to execute subtask: " ++ sub.description)
  (mem, st)

/-- One full iteration of the walk: the prelude followed by
`Executor.execute_subtask` (with its default `allow_retry=True`). -/
def execStep (env : ExecEnv) (sub : Subtask) (mem : Memory)
    (st : TaskState) : ExecOut :=
  let (mem, st) := loopPrelude sub mem st
  execute_subtask env sub true mem st

/-- The index walk after the single replan has occurred (`replans_done == 1`):
a plain sequential walk. -/
def runLoopReplanned (env : ExecEnv) :
    List Subtask → Memory → TaskState → Memory × TaskState
  | [], mem, st => (mem, st)
  | sub :: rest, mem, st =>
      let out := execStep env sub mem st
      runLoopReplanned env rest out.mem out.st

/-- The index walk before any replan (`replans_done == 0`): on a failed
result, call `Planner.replan`; when it yields a non-empty plan, record the
`"replans"` metadata entry, extend the live plan, and continue the walk over
the extended suffix with the counter at 1. -/
def runLoop (env : ExecEnv) :
    List Subtask → Memory → TaskState → Memory × TaskState
  | [], mem, st => (mem, st)
  | sub :: rest, mem, st =>
      let out := execStep env sub mem st
      if out.result.status = .failed then
        match planner_replan out.st out.mem with
        | some recovery_plan =>
            if recovery_plan.subtasks.isEmpty then
              runLoop env rest out.mem out.st
            else
              let reason :=
                match out.result.error with
                | some e => if e = "" then "subtask_failed" else e
                | none => "subtask_failed"
              let st2 :=
                { out.st with
                  metadata_replans := out.st.metadata_replans ++
                    [⟨reason, recovery_plan.subtasks.map (·.id)⟩]
                  plan := out.st.plan.map (fun p =>
                    { p with subtasks := p.subtasks ++ recovery_plan.subtasks }) }
              runLoopReplanned env (rest ++ recovery_plan.subtasks) out.mem st2
        | none => runLoop env rest out.mem out.st
      else runLoop env rest out.mem out.st

/-- `AgentCore.run_task` from the point where the planning phase has
produced its plan (`TaskSimplifier`/`Planner` output passed as `plan`):
start the task, install the plan, walk the (possibly replanning-extended)
subtask list, and finalize with `finish_task`. -/
def run_planned (env : ExecEnv) (task_description : String)
    (plan : TaskPlan) (mem : Memory) (st : TaskState) : Memory × TaskState :=
  let st := st.start_task task_description
  let st := st.set_plan plan
  let planLen := plan.subtasks.length
  let mem := mem.add_note s!"Plan created with {planLen} subtasks."
  let (mem, st) := runLoop env plan.subtasks mem st
  (mem, st.finish_task)

/-! ## Persistence tool (`tools/save_output.py`) -/

/-- The process-wide in-memory storage `_STORAGE` (insertion-ordered dict). -/
def Storage : Type := List (String × Payload)

/-- The `{key, stored}` record returned by `save_output`. -/
structure SaveRet : Type where
  key : String
  stored : Bool
deriving DecidableEq

/-- `str(payload.get("label") or "output").strip() or "output"`. -/
def effectiveLabel (lbl : Option String) : String :=
  let raw :=
    match lbl with
    | none => "output"
    | some l => if l = "" then "output" else l
  let s := raw.trim
  if s = "" then "output" else s

/-- `[int(k.split("#")[-1]) for k in _STORAGE if k.startswith(label + "#")
if k.split("#")[-1].isdigit()]`. -/
def existingIndices (storage : Storage) (label : String) : List Nat :=
  (dictKeys storage).filterMap (fun k =>
    if strStarts k (label ++ "#") && isDigits (afterLastHash k) then
      some (strToNat (afterLastHash k))
    else none)

/-- `next_index = (max(existing_indices) + 1) if existing_indices else 1`. -/
def nextIndex (storage : Storage) (label : String) : Nat :=
  if (existingIndices storage label).isEmpty then 1
  else pyMaxNat (existingIndices storage label) + 1

/-- `save_output(payload)`, with the global `_STORAGE` threaded explicitly:
derive the per-label next index, store under `label#index`, return
`{key, stored: True}`. -/
def save_output (storage : Storage) (payload : Payload) :
    SaveRet × Storage :=
  let label := effectiveLabel payload.label
  let key := label ++ "#" ++ natRepr (nextIndex storage label)
  (⟨key, true⟩, dictInsert storage key payload)

/-- `get_storage_snapshot()` (a shallow copy for inspection). -/
def get_storage_snapshot (storage : Storage) : Storage := storage

/-! ## Spec-side predicates -/

/-- The plan's id set (the ids of its subtasks). -/
def planIds (plan : TaskPlan) : List String := plan.subtasks.map (·.id)

/-- The §3 plan invariants as the spec words them: subtask count between 5
and 15 inclusive, all ids unique, every dependency id present in the plan's
id set. -/
def PlanInvariants (plan : TaskPlan) : Prop :=
  (5 ≤ plan.subtasks.length ∧ plan.subtasks.length ≤ 15) ∧
  (planIds plan).Nodup ∧
  ∀ s ∈ plan.subtasks, ∀ d ∈ s.dependencies, d ∈ planIds plan

/-- The count-violation message of `validate_task_plan`. -/
def countMsg (num : Nat) : String :=
  s!"TaskPlan must have between 5 and 15 subtasks, got {num}."

/-- The dangling-dependency message of `validate_task_plan`, naming the
offending subtask and its unknown dependency ids. -/
def unknownDepsMsg (s : Subtask) (ids : List String) : String :=
  "Subtask " ++ pyRepr s.id ++ " has unknown dependencies: " ++
    String.intercalate ", " (unknownOf ids s)

/-! ## Validator lemmas and claim C5 -/

theorem unknownOf_eq_nil_iff (ids : List String) (s : Subtask) :
    unknownOf ids s = [] ↔ ∀ d ∈ s.dependencies, d ∈ ids := by
  simp [unknownOf, List.filter_eq_nil_iff]

theorem length_eq_dedup_length_iff (l : List String) :
    (l.length = l.dedup.length) ↔ l.Nodup := by
  constructor
  · intro h
    have hsub := List.dedup_sublist l
    have : l.dedup = l := List.Sublist.eq_of_length hsub h.symm
    rw [← this]
    exact List.nodup_dedup l
  · intro h
    rw [List.dedup_eq_self.mpr h]

theorem findUnknownDeps_ok_iff (subs : List Subtask) (ids : List String) :
    (findUnknownDeps subs ids = .ok ()) ↔
      ∀ s ∈ subs, ∀ d ∈ s.dependencies, d ∈ ids := by
  induction subs with
  | nil => simp [findUnknownDeps]
  | cons s rest ih =>
      by_cases hemp : (unknownOf ids s).isEmpty
      · have hall : ∀ d ∈ s.dependencies, d ∈ ids :=
          (unknownOf_eq_nil_iff ids s).mp (List.isEmpty_iff.mp hemp)
        rw [findUnknownDeps, if_pos hemp, ih]
        constructor
        · intro h t ht
          rcases List.mem_cons.mp ht with h1 | h2
          · subst h1; exact hall
          · exact h t h2
        · intro h t ht
          exact h t (List.mem_cons_of_mem s ht)
      · rw [findUnknownDeps, if_neg hemp]
        constructor
        · intro h; cases h
        · intro h
          exact absurd
            (List.isEmpty_iff.mpr ((unknownOf_eq_nil_iff ids s).mpr
              (h s (List.mem_cons_self s rest))))
            hemp

theorem findUnknownDeps_first_error (ids : List String) (l1 : List Subtask)
    (s : Subtask) (l2 : List Subtask)
    (hok : ∀ t ∈ l1, ∀ d ∈ t.dependencies, d ∈ ids)
    (hbad : ∃ d ∈ s.dependencies, d ∉ ids) :
    findUnknownDeps (l1 ++ s :: l2) ids = .error (unknownDepsMsg s ids) := by
  induction l1 with
  | nil =>
      obtain ⟨d, hd, hnot⟩ := hbad
      have hne : ¬(unknownOf ids s).isEmpty := by
        rw [List.isEmpty_iff]
        intro hnil
        exact hnot ((unknownOf_eq_nil_iff ids s).mp hnil d hd)
      rw [List.nil_append, findUnknownDeps, if_neg hne, unknownDepsMsg]
  | cons t rest ih =>
      have hemp : (unknownOf ids t).isEmpty :=
        List.isEmpty_iff.mpr ((unknownOf_eq_nil_iff ids t).mpr
          (hok t (List.mem_cons_self t rest)))
      rw [List.cons_append, findUnknownDeps, if_pos hemp]
      exact ih (fun u hu => hok u (List.mem_cons_of_mem t hu))

/-- C5: `validate_task_plan(plan)` raises exactly when the plan is invalid,
checking in order: (a) subtask count outside 5..15 inclusive, with the
actual count in the message; (b) otherwise duplicate subtask ids; (c)
otherwise the first subtask with unknown dependency ids, with a message
naming that subtask and its unknown dependencies; otherwise it returns
normally. -/
theorem C5_validate_task_plan_spec (plan : TaskPlan) :
    ((validate_task_plan plan = .ok ()) ↔ PlanInvariants plan)
    ∧ (¬(5 ≤ plan.subtasks.length ∧ plan.subtasks.length ≤ 15) →
        validate_task_plan plan = .error (countMsg plan.subtasks.length))
    ∧ ((5 ≤ plan.subtasks.length ∧ plan.subtasks.length ≤ 15) →
        ¬(planIds plan).Nodup →
        validate_task_plan plan = .error "Subtask IDs must be unique.")
    ∧ ((5 ≤ plan.subtasks.length ∧ plan.subtasks.length ≤ 15) →
        (planIds plan).Nodup →
        ∀ l1 s l2, plan.subtasks = l1 ++ s :: l2 →
        (∀ t ∈ l1, ∀ d ∈ t.dependencies, d ∈ planIds plan) →
        (∃ d ∈ s.dependencies, d ∉ planIds plan) →
        validate_task_plan plan = .error (unknownDepsMsg s (planIds plan))) := by
  have hval : validate_task_plan plan =
      if ¬(5 ≤ plan.subtasks.length ∧ plan.subtasks.length ≤ 15) then
        .error (countMsg plan.subtasks.length)
      else if (planIds plan).length ≠ (planIds plan).dedup.length then
        .error "Subtask IDs must be unique."
      else findUnknownDeps plan.subtasks (planIds plan) := rfl
  refine ⟨?_, ?_, ?_, ?_⟩
  · constructor
    · intro h
      rw [hval] at h
      by_cases hcount : 5 ≤ plan.subtasks.length ∧ plan.subtasks.length ≤ 15
      · rw [if_neg (not_not_intro hcount)] at h
        by_cases hdup : (planIds plan).length = (planIds plan).dedup.length
        · rw [if_neg (not_not_intro hdup)] at h
          exact ⟨hcount, (length_eq_dedup_length_iff _).mp hdup,
            (findUnknownDeps_ok_iff _ _).mp h⟩
        · rw [if_pos hdup] at h
          cases h
      · rw [if_pos hcount] at h
        cases h
    · rintro ⟨hcount, hnodup, hdeps⟩
      rw [hval, if_neg (not_not_intro hcount),
        if_neg (not_not_intro ((length_eq_dedup_length_iff _).mpr hnodup))]
      exact (findUnknownDeps_ok_iff _ _).mpr hdeps
  · intro hcount
    rw [hval, if_pos hcount]
  · intro hcount hdup
    have hne : (planIds plan).length ≠ (planIds plan).dedup.length :=
      fun h => hdup ((length_eq_dedup_length_iff _).mp h)
    rw [hval, if_neg (not_not_intro hcount), if_pos hne]
  · intro hcount hnodup l1 s l2 hsplit hok hbad
    rw [hval, if_neg (not_not_intro hcount),
      if_neg (not_not_intro ((length_eq_dedup_length_iff _).mpr hnodup)),
      hsplit]
    exact findUnknownDeps_first_error _ l1 s l2 hok hbad

/-- Witness for C5: a concrete valid 5-step plan validates, and dropping a
dependency target is rejected with the dangling-dependency message. -/
theorem C5_validate_task_plan_spec_witness :
    validate_task_plan
      { task := "t"
        subtasks :=
          [ { id := "step-1", description := "a", tool := .generate_text },
            { id := "step-2", description := "b", tool := .generate_text,
              dependencies := ["step-1"] },
            { id := "step-3", description := "c", tool := .search_in_files },
            { id := "step-4", description := "d", tool := .modify_data },
            { id := "step-5", description := "e", tool := .save_output } ] }
      = .ok () := by
  apply (C5_validate_task_plan_spec _).1.mpr
  refine ⟨by decide, by decide, ?_⟩
  decide

/-! ## Executor attempt lemmas (retry bound, fallback reachability) -/

/-- On an `allowRetry = false` attempt the retry continuation is dead code:
the attempt's outcome does not depend on it. -/
theorem execAttempt_false_retryK_irrelevant (env : ExecEnv) (sub : Subtask)
    (k k' : Memory → TaskState → ExecOut) (mem : Memory) (st : TaskState) :
    execAttempt env sub false k mem st = execAttempt env sub false k' mem st := by
  unfold execAttempt
  repeat' split
  all_goals rfl

/-- An `allowRetry = false` attempt enters the body exactly once and never
invokes a fallback tool (the fallback block requires `allowRetry`). -/
theorem execAttempt_false_entries_fb (env : ExecEnv) (sub : Subtask)
    (k : Memory → TaskState → ExecOut) (mem : Memory) (st : TaskState) :
    (execAttempt env sub false k mem st).entries = 1 ∧
    (execAttempt env sub false k mem st).fallbackInvoked = false := by
  unfold execAttempt
  simp only [Bool.false_and, Bool.false_eq_true, if_false]
  repeat' split
  all_goals exact ⟨rfl, rfl⟩

/-- Any attempt whose retry continuation enters the body exactly once enters
it at most twice. -/
theorem execAttempt_entries_le (env : ExecEnv) (sub : Subtask)
    (K : Memory → TaskState → ExecOut) (hK : ∀ m s, (K m s).entries = 1)
    (b : Bool) (mem : Memory) (st : TaskState) :
    (execAttempt env sub b K mem st).entries ≤ 2 := by
  unfold execAttempt
  cases hreg : env.registry (choose_tool env.registry sub mem st)
  · simp [hreg]
  · simp only [hreg]
    repeat' split
    all_goals simp_all [hK]

/-- C3: the retry recursion of `execute_subtask` terminates after at most
one self-retry: an `allow_retry=False` call enters the procedure body
exactly once, and an `allow_retry=True` call at most twice (the single
recursive re-invocation carries `allow_retry=False`). -/
theorem C3_retry_bound (env : ExecEnv) (sub : Subtask) (mem : Memory)
    (st : TaskState) :
    (execute_subtask env sub false mem st).entries = 1 ∧
    (execute_subtask env sub true mem st).entries ≤ 2 := by
  constructor
  · exact (execAttempt_false_entries_fb env sub _ mem st).1
  · exact execAttempt_entries_le env sub _
      (fun m s => (execAttempt_false_entries_fb env sub _ m s).1) true mem st

/-- The router returns the declared tool whenever it is registered. -/
theorem choose_tool_total (registry : ToolName → Option ToolFn)
    (sub : Subtask) (mem : Memory) (st : TaskState)
    (h : (registry sub.tool).isSome) :
    choose_tool registry sub mem st = sub.tool := by
  unfold choose_tool
  rw [if_pos h]

/-- The fallback table has exactly one entry: search falls back to
generation. -/
theorem choose_fallback_eq_some_iff (t : ToolName) (sub : Subtask)
    (mem : Memory) (st : TaskState) (fb : ToolName) :
    choose_fallback t sub mem st = some fb ↔
      t = .search_in_files ∧ fb = .generate_text := by
  unfold choose_fallback
  split <;> simp_all [eq_comm]

/-- The search self-check recommends a retry exactly when it fails. -/
theorem self_check_search_retry (sub : Subtask) (out : Output)
    (h : sub.tool = .search_in_files) :
    (self_check sub out).retry = !(self_check sub out).success := by
  unfold self_check
  rw [h]

/-- With a total registry, no attempt ever invokes a fallback tool: the
declared tool is always routed, the only fallback entry is for search, and a
failing search self-check always recommends the retry branch instead. -/
theorem execAttempt_total_no_fallback (env : ExecEnv) (sub : Subtask)
    (htotal : ∀ t, (env.registry t).isSome)
    (K : Memory → TaskState → ExecOut)
    (hK : ∀ m s, (K m s).fallbackInvoked = false)
    (b : Bool) (mem : Memory) (st : TaskState) :
    (execAttempt env sub b K mem st).fallbackInvoked = false := by
  have htool : choose_tool env.registry sub mem st = sub.tool :=
    choose_tool_total env.registry sub mem st (htotal sub.tool)
  obtain ⟨f, hf⟩ := Option.isSome_iff_exists.mp (htotal sub.tool)
  unfold execAttempt
  simp only [htool, hf]
  repeat' split
  all_goals
    simp_all [hK, choose_fallback_eq_some_iff, self_check_search_retry]

/-- C10: with every `ToolName` registered (as in the default
`TOOL_REGISTRY`), `execute_subtask` never invokes a fallback tool — the
fallback branch is unreachable. -/
theorem C10_fallback_unreachable (env : ExecEnv)
    (htotal : ∀ t, (env.registry t).isSome) (sub : Subtask)
    (allowRetry : Bool) (mem : Memory) (st : TaskState) :
    (execute_subtask env sub allowRetry mem st).fallbackInvoked = false := by
  exact execAttempt_total_no_fallback env sub htotal _
    (fun m s => (execAttempt_false_entries_fb env sub _ m s).2)
    allowRetry mem st

/-! ## Concrete fixtures for witnesses and counterexamples -/

/-- A generation tool whose output passes the generation self-check. -/
def genTool : ToolFn := fun _ => .ok [("text", .str "Generated: ok")]

/-- A search tool that always returns zero results. -/
def emptySearchTool : ToolFn := fun _ => .ok [("results", .listV [])]

/-- A tool that always raises. -/
def failTool : ToolFn := fun _ => .error "boom"

/-- An environment with every tool registered (to `genTool`). -/
def totalEnv : ExecEnv := ⟨fun _ => some genTool, fun _ _ _ _ => ""⟩

/-- An environment with every tool registered, all of them raising. -/
def failEnv : ExecEnv := ⟨fun _ => some failTool, fun _ _ _ _ => ""⟩

/-- A plain generation subtask. -/
def subGen : Subtask :=
  { id := "step-1", description := "Generate a greeting", tool := .generate_text }

/-- Witness for C10: a fully registered environment never reaches the
fallback branch on a concrete run. -/
theorem C10_fallback_unreachable_witness :
    (∀ t, (totalEnv.registry t).isSome) ∧
    (execute_subtask totalEnv subGen true {} {}).fallbackInvoked = false :=
  ⟨fun _ => rfl,
    C10_fallback_unreachable totalEnv (fun _ => rfl) subGen true {} {}⟩

/-! ## Claim C4: tool exceptions become local terminal failures -/

/-- C4: when the routed tool raises, `execute_subtask` returns a failed
result whose error is the exception's message, records it exactly once in
`TaskState.subtask_results` (`finish_subtask`) and once in `Memory`
(`record_result`: one history entry and the output-map update), enters the
body once (no retry), invokes no fallback, and records no observation or
critique trace (self-check skipped).  The exception never propagates: the
embedding of `execute_subtask` is a total function. -/
theorem C4_tool_exception (env : ExecEnv) (sub : Subtask) (allowRetry : Bool)
    (mem : Memory) (st : TaskState) (f : ToolFn) (msg : String)
    (hreg : env.registry (choose_tool env.registry sub mem st) = some f)
    (hf : ∀ p, f p = .error msg) :
    (execute_subtask env sub allowRetry mem st).result =
      ⟨sub.id, .failed, [], some msg⟩ ∧
    (execute_subtask env sub allowRetry mem st).st.subtask_results =
      st.subtask_results ++ [⟨sub.id, .failed, [], some msg⟩] ∧
    (execute_subtask env sub allowRetry mem st).mem.history =
      mem.history ++ [⟨sub.id, .failed, some msg⟩] ∧
    (execute_subtask env sub allowRetry mem st).mem.tool_outputs =
      dictInsert mem.tool_outputs sub.id [] ∧
    (execute_subtask env sub allowRetry mem st).entries = 1 ∧
    (execute_subtask env sub allowRetry mem st).fallbackInvoked = false ∧
    ∃ preview,
      (execute_subtask env sub allowRetry mem st).mem.traces =
        mem.traces ++
          [(sub.id, .thought
              s!"Decide which tool to use for subtask {sub.id}: {sub.description}"),
           (sub.id, .action (choose_tool env.registry sub mem st) preview)] := by
  unfold execute_subtask execAttempt
  simp only [hreg, hf]
  simp [update_after_execution, Memory.record_result, Memory.add_note,
    Memory.record_trace, TaskState.finish_subtask]

/-- Witness for C4: a concrete always-raising registry yields the failed
result with the exception text as error. -/
theorem C4_tool_exception_witness :
    (failEnv.registry (choose_tool failEnv.registry subGen {} {}) =
      some failTool) ∧
    (execute_subtask failEnv subGen true {} {}).result =
      ⟨subGen.id, .failed, [], some "boom"⟩ :=
  ⟨rfl,
    (C4_tool_exception failEnv subGen true {} {} failTool "boom" rfl
      (fun _ => rfl)).1⟩

/-! ## State-effect shape of one `execute_subtask` call -/

/-- What one executor call does to the task state: it appends exactly its
result (with the subtask's id and a terminal status) to `subtask_results`
and leaves every other `TaskState` field unchanged. -/
def ExecShape (sub : Subtask) (st : TaskState) (out : ExecOut) : Prop :=
  out.st.subtask_results = st.subtask_results ++ [out.result] ∧
  (out.result.status = .succeeded ∨ out.result.status = .failed) ∧
  out.result.subtask_id = sub.id ∧
  out.st.metadata_replans = st.metadata_replans ∧
  out.st.metadata_started = st.metadata_started ∧
  out.st.plan = st.plan ∧
  out.st.status = st.status ∧
  out.st.task_description = st.task_description

theorem execAttempt_shape_false (env : ExecEnv) (sub : Subtask)
    (K : Memory → TaskState → ExecOut) (mem : Memory) (st : TaskState) :
    ExecShape sub st (execAttempt env sub false K mem st) := by
  unfold ExecShape execAttempt
  simp only [Bool.false_and, Bool.false_eq_true, if_false]
  cases hreg : env.registry (choose_tool env.registry sub mem st)
  · simp [hreg, update_after_execution, TaskState.finish_subtask]
  · simp only [hreg]
    repeat' split
    all_goals simp_all [update_after_execution, TaskState.finish_subtask]

theorem execAttempt_shape (env : ExecEnv) (sub : Subtask)
    (K : Memory → TaskState → ExecOut)
    (hK : ∀ m s, ExecShape sub s (K m s)) (b : Bool) (mem : Memory)
    (st : TaskState) :
    ExecShape sub st (execAttempt env sub b K mem st) := by
  unfold ExecShape execAttempt
  cases hreg : env.registry (choose_tool env.registry sub mem st)
  · simp [hreg, update_after_execution, TaskState.finish_subtask]
  · simp only [hreg]
    repeat' split
    all_goals
      first
      | exact hK _ _
      | simp_all [update_after_execution, TaskState.finish_subtask]

/-- One `execute_subtask` call appends exactly its result (carrying the
subtask's id and a terminal succeeded/failed status) to the state and
leaves the other state fields unchanged. -/
theorem execute_subtask_shape (env : ExecEnv) (sub : Subtask) (b : Bool)
    (mem : Memory) (st : TaskState) :
    ExecShape sub st (execute_subtask env sub b mem st) :=
  execAttempt_shape env sub _
    (fun m s => execAttempt_shape_false env sub _ m s) b mem st

/-! ## Outer-loop lemmas -/

/-- A full loop iteration appends exactly the executor's result (terminal
status, the subtask's id) and touches no other state field the loop's
bookkeeping depends on. -/
theorem execStep_shape (env : ExecEnv) (sub : Subtask) (mem : Memory)
    (st : TaskState) :
    (execStep env sub mem st).st.subtask_results =
      st.subtask_results ++ [(execStep env sub mem st).result] ∧
    ((execStep env sub mem st).result.status = .succeeded ∨
      (execStep env sub mem st).result.status = .failed) ∧
    (execStep env sub mem st).result.subtask_id = sub.id ∧
    (execStep env sub mem st).st.metadata_replans = st.metadata_replans ∧
    (execStep env sub mem st).st.plan = st.plan ∧
    (execStep env sub mem st).st.task_description = st.task_description := by
  have h := execute_subtask_shape env sub true
    (loopPrelude sub mem st).1 (loopPrelude sub mem st).2
  obtain ⟨h1, h2, h3, h4, _h5, h6, _h7, h8⟩ := h
  exact ⟨h1, h2, h3, h4, h6, h8⟩

/-- `Planner.replan` only ever returns the fixed two-step recovery plan,
whose subtask ids are `replan-1` and `replan-2`. -/
theorem planner_replan_ids (st : TaskState) (mem : Memory) (rp : TaskPlan)
    (h : planner_replan st mem = some rp) :
    rp.subtasks.map (·.id) = ["replan-1", "replan-2"] := by
  unfold planner_replan at h
  split at h
  · cases h
  · split at h
    · cases h
    · cases h
      rfl

/-- The walk with the replan counter exhausted: results are appended one per
walked subtask, in walk order, with terminal statuses; no replan metadata is
recorded. -/
theorem runLoopReplanned_spec (env : ExecEnv) (subs : List Subtask)
    (mem : Memory) (st : TaskState) :
    ∃ l : List SubtaskResult,
      (runLoopReplanned env subs mem st).2.subtask_results =
        st.subtask_results ++ l ∧
      l.map (·.subtask_id) = subs.map (·.id) ∧
      (∀ r ∈ l, r.status = .succeeded ∨ r.status = .failed) ∧
      (runLoopReplanned env subs mem st).2.metadata_replans =
        st.metadata_replans := by
  induction subs generalizing mem st with
  | nil => exact ⟨[], by simp [runLoopReplanned]⟩
  | cons sub rest ih =>
      obtain ⟨h1, h2, h3, h4, _, _⟩ := execStep_shape env sub mem st
      obtain ⟨l', g1, g2, g3, g4⟩ :=
        ih (execStep env sub mem st).mem (execStep env sub mem st).st
      refine ⟨(execStep env sub mem st).result :: l', ?_, ?_, ?_, ?_⟩
      · rw [runLoopReplanned, g1, h1, List.append_assoc]
        rfl
      · simp [g2, h3]
      · intro r hr
        rcases List.mem_cons.mp hr with h | h
        · subst h; exact h2
        · exact g3 r h
      · rw [runLoopReplanned, g4, h4]

/-- The walk before any replan: results are appended one per walked subtask
(recovery subtasks, when injected, at the end), at most one `"replans"`
metadata entry is ever recorded, its recovery ids are the fixed two, and a
recorded replan implies some recorded failed result. -/
theorem runLoop_spec (env : ExecEnv) (subs : List Subtask) (mem : Memory)
    (st : TaskState) :
    ∃ (l : List SubtaskResult) (evs : List ReplanEvent),
      (runLoop env subs mem st).2.subtask_results =
        st.subtask_results ++ l ∧
      (runLoop env subs mem st).2.metadata_replans =
        st.metadata_replans ++ evs ∧
      (∀ r ∈ l, r.status = .succeeded ∨ r.status = .failed) ∧
      evs.length ≤ 1 ∧
      (∀ e ∈ evs, e.recovery_subtasks = ["replan-1", "replan-2"]) ∧
      l.map (·.subtask_id) =
        subs.map (·.id) ++ evs.flatMap (·.recovery_subtasks) ∧
      (evs ≠ [] → ∃ r ∈ l, r.status = .failed) := by
  induction subs generalizing mem st with
  | nil => exact ⟨[], [], by simp [runLoop]⟩
  | cons sub rest ih =>
      obtain ⟨h1, h2, h3, h4, h5, h6⟩ := execStep_shape env sub mem st
      by_cases hfail : (execStep env sub mem st).result.status = .failed
      · cases hrp : planner_replan (execStep env sub mem st).st
            (execStep env sub mem st).mem with
        | none =>
            obtain ⟨l', evs, g1, g2, g3, g4, g5, g6, g7⟩ :=
              ih (execStep env sub mem st).mem (execStep env sub mem st).st
            refine ⟨(execStep env sub mem st).result :: l', evs,
              ?_, ?_, ?_, g4, g5, ?_, ?_⟩
            · simp only [runLoop, hfail, hrp, reduceIte]
              rw [g1, h1, List.append_assoc]
              rfl
            · simp only [runLoop, hfail, hrp, reduceIte]
              rw [g2, h4]
            · intro r hr
              rcases List.mem_cons.mp hr with h | h
              · subst h; exact h2
              · exact g3 r h
            · simp [g6, h3]
            · intro hne
              obtain ⟨r, hrmem, hrst⟩ := g7 hne
              exact ⟨r, List.mem_cons_of_mem _ hrmem, hrst⟩
        | some rp =>
            have hids := planner_replan_ids _ _ _ hrp
            have hne : ¬rp.subtasks.isEmpty := by
              intro hemp
              rw [List.isEmpty_iff] at hemp
              rw [hemp] at hids
              cases hids
            obtain ⟨l', g1, g2, g3, g4⟩ :=
              runLoopReplanned_spec env (rest ++ rp.subtasks)
                (execStep env sub mem st).mem
                { (execStep env sub mem st).st with
                  metadata_replans :=
                    (execStep env sub mem st).st.metadata_replans ++
                      [⟨match (execStep env sub mem st).result.error with
                        | some e => if e = "" then "subtask_failed" else e
                        | none => "subtask_failed",
                        rp.subtasks.map (·.id)⟩]
                  plan := (execStep env sub mem st).st.plan.map (fun p =>
                    { p with subtasks := p.subtasks ++ rp.subtasks }) }
            refine ⟨(execStep env sub mem st).result :: l',
              [⟨match (execStep env sub mem st).result.error with
                | some e => if e = "" then "subtask_failed" else e
                | none => "subtask_failed",
                rp.subtasks.map (·.id)⟩], ?_, ?_, ?_, ?_, ?_, ?_, ?_⟩
            · simp only [runLoop, hfail, hrp, hne, reduceIte,
                Bool.false_eq_true, if_false]
              rw [g1]
              simp only []
              rw [h1, List.append_assoc]
              rfl
            · simp only [runLoop, hfail, hrp, hne, reduceIte,
                Bool.false_eq_true, if_false]
              rw [g4]
              simp only []
              rw [h4]
            · intro r hr
              rcases List.mem_cons.mp hr with h | h
              · subst h; exact h2
              · exact g3 r h
            · simp
            · intro e he
              rcases List.mem_singleton.mp he with rfl
              simpa using hids
            · simp only [List.map_cons, g2, h3, List.map_append, hids,
                List.flatMap_cons, List.flatMap_nil, List.append_nil,
                List.cons_append, List.map]
            · intro _
              exact ⟨(execStep env sub mem st).result,
                List.mem_cons_self _ _, hfail⟩
      · obtain ⟨l', evs, g1, g2, g3, g4, g5, g6, g7⟩ :=
          ih (execStep env sub mem st).mem (execStep env sub mem st).st
        refine ⟨(execStep env sub mem st).result :: l', evs,
          ?_, ?_, ?_, g4, g5, ?_, ?_⟩
        · rw [runLoop, if_neg hfail, g1, h1, List.append_assoc]
          rfl
        · rw [runLoop, if_neg hfail, g2, h4]

        · intro r hr
          rcases List.mem_cons.mp hr with h | h
          · subst h; exact h2
          · exact g3 r h
        · simp [g6, h3]
        · intro hne
          obtain ⟨r, hrmem, hrst⟩ := g7 hne
          exact ⟨r, List.mem_cons_of_mem _ hrmem, hrst⟩

/-- `finish_task` only writes the status field. -/
theorem finish_task_preserves (st : TaskState) :
    st.finish_task.subtask_results = st.subtask_results ∧
    st.finish_task.metadata_replans = st.metadata_replans := by
  simp only [TaskState.finish_task]
  split_ifs <;> exact ⟨rfl, rfl⟩

/-- The status written by `finish_task`, characterised over any result list
whose statuses are terminal: `succeeded` iff the (nonempty) results all
succeeded, `partial_success` iff some succeeded and some failed, `failed`
iff none succeeded (in particular when there are no results at all). -/
theorem finish_task_status_spec (st : TaskState)
    (h : ∀ r ∈ st.subtask_results,
      r.status = .succeeded ∨ r.status = .failed) :
    (st.finish_task.status = .succeeded ↔
      st.subtask_results ≠ [] ∧
        ∀ r ∈ st.subtask_results, r.status = .succeeded) ∧
    (st.finish_task.status = .partialSuccess ↔
      (∃ r ∈ st.subtask_results, r.status = .succeeded) ∧
      (∃ r ∈ st.subtask_results, r.status = .failed)) ∧
    (st.finish_task.status = .failed ↔
      ¬∃ r ∈ st.subtask_results, r.status = .succeeded) := by
  unfold TaskState.finish_task
  by_cases hemp : st.subtask_results.isEmpty
  · rw [if_pos hemp]
    rw [List.isEmpty_iff] at hemp
    simp [hemp]
  · rw [if_neg hemp]
    rw [List.isEmpty_iff] at hemp
    by_cases hfailed :
        st.subtask_results.any (fun r => r.status = .failed)
    · rw [if_pos hfailed]
      rw [List.any_eq_true] at hfailed
      obtain ⟨rf, hrf, hrfst⟩ := hfailed
      simp only [decide_eq_true_eq] at hrfst
      by_cases hsucc :
          st.subtask_results.any (fun r => r.status = .succeeded)
      · rw [if_pos hsucc]
        rw [List.any_eq_true] at hsucc
        obtain ⟨rs, hrs, hrsst⟩ := hsucc
        simp only [decide_eq_true_eq] at hrsst
        refine ⟨?_, ?_, ?_⟩
        · simp only [reduceCtorEq, false_iff]
          intro ⟨_, hall⟩
          rw [hall rf hrf] at hrfst
          cases hrfst
        · simp only [true_iff]
          exact ⟨⟨rs, hrs, hrsst⟩, ⟨rf, hrf, hrfst⟩⟩
        · simp only [reduceCtorEq, false_iff, not_not]
          exact ⟨rs, hrs, hrsst⟩
      · rw [if_neg hsucc]
        simp only [List.any_eq_true, decide_eq_true_eq] at hsucc
        push_neg at hsucc
        refine ⟨?_, ?_, ?_⟩
        · simp only [reduceCtorEq, false_iff]
          intro ⟨_, hall⟩
          rw [hall rf hrf] at hrfst
          cases hrfst
        · simp only [reduceCtorEq, false_iff]
          intro ⟨⟨rs, hrs, hrsst⟩, _⟩
          exact hsucc rs hrs hrsst
        · simp only [true_iff]
          intro ⟨rs, hrs, hrsst⟩
          exact hsucc rs hrs hrsst
    · rw [if_neg hfailed]
      simp only [List.any_eq_true, decide_eq_true_eq] at hfailed
      push_neg at hfailed
      have hall : ∀ r ∈ st.subtask_results, r.status = .succeeded := by
        intro r hr
        rcases h r hr with hs | hf
        · exact hs
        · exact absurd hf (hfailed r hr)
      refine ⟨?_, ?_, ?_⟩
      · simp only [true_iff]
        exact ⟨hemp, hall⟩
      · simp only [reduceCtorEq, false_iff]
        intro ⟨_, ⟨rf, hrf, hrfst⟩⟩
        rw [hall rf hrf] at hrfst
        cases hrfst
      · simp only [reduceCtorEq, false_iff, not_not]
        obtain ⟨r0, hr0⟩ := List.exists_mem_of_ne_nil _ hemp
        exact ⟨r0, hr0, hall r0 hr0⟩

/-- C6: after the index walk of `run_planned` (the execution phase of
`AgentCore.run_task` started on a fresh result list), `finish_task` sets
the overall status to `succeeded` iff the recorded results are nonempty and
all succeeded, to `partial_success` iff some succeeded and some failed, and
to `failed` iff none succeeded — in particular `failed` when the result
list is empty. -/
theorem C6_final_status (env : ExecEnv) (task_description : String)
    (plan : TaskPlan) (mem : Memory) (st : TaskState)
    (h : st.subtask_results = []) :
    ((run_planned env task_description plan mem st).2.status = .succeeded ↔
      (run_planned env task_description plan mem st).2.subtask_results ≠ [] ∧
        ∀ r ∈ (run_planned env task_description plan mem st).2.subtask_results,
          r.status = .succeeded) ∧
    ((run_planned env task_description plan mem st).2.status = .partialSuccess ↔
      (∃ r ∈ (run_planned env task_description plan mem st).2.subtask_results,
        r.status = .succeeded) ∧
      (∃ r ∈ (run_planned env task_description plan mem st).2.subtask_results,
        r.status = .failed)) ∧
    ((run_planned env task_description plan mem st).2.status = .failed ↔
      ¬∃ r ∈ (run_planned env task_description plan mem st).2.subtask_results,
        r.status = .succeeded) := by
  obtain ⟨l, evs, g1, g2, g3, g4, g5, g6, g7⟩ :=
    runLoop_spec env plan.subtasks
      ((mem.add_note s!"Plan created with {plan.subtasks.length} subtasks."))
      ((st.start_task task_description).set_plan plan)
  have hrun : run_planned env task_description plan mem st =
      ((runLoop env plan.subtasks
          (mem.add_note s!"Plan created with {plan.subtasks.length} subtasks.")
          ((st.start_task task_description).set_plan plan)).1,
        (runLoop env plan.subtasks
          (mem.add_note s!"Plan created with {plan.subtasks.length} subtasks.")
          ((st.start_task task_description).set_plan plan)).2.finish_task) := by
    unfold run_planned
    rfl
  rw [hrun]
  simp only []
  set s2 := (runLoop env plan.subtasks
      (mem.add_note s!"Plan created with {plan.subtasks.length} subtasks.")
      ((st.start_task task_description).set_plan plan)).2 with hs2
  have hres : s2.subtask_results = l := by
    rw [g1]
    show (((st.start_task task_description).set_plan
      plan).subtask_results : List SubtaskResult) ++ l = l
    have : ((st.start_task task_description).set_plan
        plan).subtask_results = st.subtask_results := rfl
    rw [this, h, List.nil_append]
  have hterm : ∀ r ∈ s2.subtask_results,
      r.status = .succeeded ∨ r.status = .failed := by
    rw [hres]; exact g3
  have hspec := finish_task_status_spec s2 hterm
  rw [(finish_task_preserves s2).1]
  exact hspec

/-- Witness for C6 at a concrete fully-registered environment and a
one-subtask plan over a fresh state. -/
theorem C6_final_status_witness :
    (({} : TaskState).subtask_results = []) ∧
    ((run_planned totalEnv "demo task" ⟨"demo task", [subGen]⟩ {} {}).2.status
        = .succeeded ↔
      (run_planned totalEnv "demo task" ⟨"demo task", [subGen]⟩ {} {}).2.subtask_results ≠ [] ∧
        ∀ r ∈ (run_planned totalEnv "demo task" ⟨"demo task", [subGen]⟩ {} {}).2.subtask_results,
          r.status = .succeeded) :=
  ⟨rfl, (C6_final_status totalEnv "demo task" ⟨"demo task", [subGen]⟩ {} {} rfl).1⟩

/-- C7: in a run started with no replan metadata, at most one `"replans"`
entry is ever recorded; a recorded entry names the two fixed recovery
subtasks, implies some recorded failed result, and the executed-result ids
are exactly the plan's ids followed by the appended recovery ids (they were
run by the same index walk, at the end of the list); with no replan the
executed ids are exactly the plan's ids. -/
theorem C7_single_replan (env : ExecEnv) (task_description : String)
    (plan : TaskPlan) (mem : Memory) (st : TaskState)
    (hrep : st.metadata_replans = []) :
    (run_planned env task_description plan mem st).2.metadata_replans.length ≤ 1 ∧
    (∀ e ∈ (run_planned env task_description plan mem st).2.metadata_replans,
      e.recovery_subtasks = ["replan-1", "replan-2"]) ∧
    ((run_planned env task_description plan mem st).2.metadata_replans ≠ [] →
      (∃ r ∈ (run_planned env task_description plan mem st).2.subtask_results,
        r.status = .failed) ∧
      (run_planned env task_description plan mem st).2.subtask_results.map
          (·.subtask_id) =
        st.subtask_results.map (·.subtask_id) ++ planIds plan ++
          ["replan-1", "replan-2"]) ∧
    ((run_planned env task_description plan mem st).2.metadata_replans = [] →
      (run_planned env task_description plan mem st).2.subtask_results.map
          (·.subtask_id) =
        st.subtask_results.map (·.subtask_id) ++ planIds plan) := by
  obtain ⟨l, evs, g1, g2, g3, g4, g5, g6, g7⟩ :=
    runLoop_spec env plan.subtasks
      ((mem.add_note s!"Plan created with {plan.subtasks.length} subtasks."))
      ((st.start_task task_description).set_plan plan)
  have hrun : run_planned env task_description plan mem st =
      ((runLoop env plan.subtasks
          (mem.add_note s!"Plan created with {plan.subtasks.length} subtasks.")
          ((st.start_task task_description).set_plan plan)).1,
        (runLoop env plan.subtasks
          (mem.add_note s!"Plan created with {plan.subtasks.length} subtasks.")
          ((st.start_task task_description).set_plan plan)).2.finish_task) := by
    unfold run_planned
    rfl
  rw [hrun]
  simp only []
  set s2 := (runLoop env plan.subtasks
      (mem.add_note s!"Plan created with {plan.subtasks.length} subtasks.")
      ((st.start_task task_description).set_plan plan)).2 with hs2
  have hmr : s2.metadata_replans = evs := by
    rw [g2]
    show (((st.start_task task_description).set_plan
      plan).metadata_replans : List ReplanEvent) ++ evs = evs
    have : ((st.start_task task_description).set_plan
        plan).metadata_replans = st.metadata_replans := rfl
    rw [this, hrep, List.nil_append]
  have hres : s2.subtask_results = st.subtask_results ++ l := by
    rw [g1]
    rfl
  rw [(finish_task_preserves s2).1, (finish_task_preserves s2).2, hmr, hres]
  refine ⟨g4, g5, ?_, ?_⟩
  · intro hne
    constructor
    · obtain ⟨r, hr, hrst⟩ := g7 hne
      exact ⟨r, List.mem_append_right _ hr, hrst⟩
    · rcases evs with _ | ⟨e, evtail⟩
      · exact absurd rfl hne
      · have hlen0 : evtail.length = 0 := by
          have hx := g4
          simp only [List.length_cons] at hx
          omega
        have hlen : evtail = [] := List.length_eq_zero.mp hlen0
        subst hlen
        have herec : e.recovery_subtasks = ["replan-1", "replan-2"] :=
          g5 e (List.mem_cons_self e [])
        rw [List.map_append, g6]
        simp [herec, planIds]
  · intro hevnil
    subst hevnil
    rw [List.map_append, g6]
    simp [planIds]

/-- Witness for C7 at a concrete environment whose tools always raise (so
every subtask fails and a replan fires) over a fresh state. -/
theorem C7_single_replan_witness :
    (({} : TaskState).metadata_replans = []) ∧
    (run_planned failEnv "demo task" ⟨"demo task", [subGen]⟩ {} {}).2.metadata_replans.length ≤ 1 :=
  ⟨rfl, (C7_single_replan failEnv "demo task" ⟨"demo task", [subGen]⟩ {} {} rfl).1⟩

/-! ## Planner scoring and selection (claim C8) -/

/-- The scoring formula as the spec words it: +2 if a search-class tool
appears anywhere in the plan, +2 if a persistence-class tool appears
anywhere, plus `min(subtask count, 10)`. -/
def scoreSpec (plan : TaskPlan) : Nat :=
  (if ∃ s ∈ plan.subtasks, s.tool = .search_in_files then 2 else 0) +
  (if ∃ s ∈ plan.subtasks, s.tool = .save_output then 2 else 0) +
  min plan.subtasks.length 10

theorem contains_tool_iff (plan : TaskPlan) (t : ToolName) :
    ((plan.subtasks.map (fun s => s.tool)).contains t = true) ↔
      ∃ s ∈ plan.subtasks, s.tool = t := by
  simp [List.contains_iff_exists_mem_beq, List.mem_map, eq_comm]

theorem score_plan_eq_spec (plan : TaskPlan) :
    score_plan plan = scoreSpec plan := by
  unfold score_plan scoreSpec
  by_cases h1 : ∃ s ∈ plan.subtasks, s.tool = ToolName.search_in_files <;>
    by_cases h2 : ∃ s ∈ plan.subtasks, s.tool = ToolName.save_output <;>
      simp [contains_tool_iff, h1, h2]

/-- The Python `max` fold keeps the first maximal element: the chosen plan
splits the candidate list into a strictly-lower-scoring prefix and the
rest, and no candidate scores higher. -/
theorem pyMaxByFst_first_argmax (ps : List TaskPlan) (best : TaskPlan) :
    ∃ l1 l2,
      best :: ps =
        l1 ++ (pyMaxByFst (score_plan best, best)
          (ps.map (fun q => (score_plan q, q)))).2 :: l2 ∧
      (∀ x ∈ l1, score_plan x <
        score_plan (pyMaxByFst (score_plan best, best)
          (ps.map (fun q => (score_plan q, q)))).2) ∧
      score_plan best ≤
        score_plan (pyMaxByFst (score_plan best, best)
          (ps.map (fun q => (score_plan q, q)))).2 ∧
      (∀ x ∈ ps, score_plan x ≤
        score_plan (pyMaxByFst (score_plan best, best)
          (ps.map (fun q => (score_plan q, q)))).2) := by
  induction ps generalizing best with
  | nil => exact ⟨[], [], rfl, by simp, le_refl _, by simp⟩
  | cons x xs ih =>
      by_cases hgt : score_plan x > score_plan best
      · have hstep :
            pyMaxByFst (score_plan best, best)
              ((x :: xs).map (fun q => (score_plan q, q))) =
            pyMaxByFst (score_plan x, x)
              (xs.map (fun q => (score_plan q, q))) := by
          simp only [List.map_cons, pyMaxByFst]
          rw [if_pos hgt]
        rw [hstep]
        obtain ⟨l1, l2, heq, hlt, hbestle, hxsle⟩ := ih x
        refine ⟨best :: l1, l2, ?_, ?_, ?_, ?_⟩
        · rw [List.cons_append, ← heq]
        · intro y hy
          rcases List.mem_cons.mp hy with h | h
          · subst h; exact lt_of_lt_of_le hgt hbestle
          · exact hlt y h
        · exact le_of_lt (lt_of_lt_of_le hgt hbestle)
        · intro y hy
          rcases List.mem_cons.mp hy with h | h
          · subst h; exact hbestle
          · exact hxsle y h
      · have hstep :
            pyMaxByFst (score_plan best, best)
              ((x :: xs).map (fun q => (score_plan q, q))) =
            pyMaxByFst (score_plan best, best)
              (xs.map (fun q => (score_plan q, q))) := by
          simp only [List.map_cons, pyMaxByFst]
          rw [if_neg hgt]
        rw [hstep]
        obtain ⟨l1, l2, heq, hlt, hbestle, hxsle⟩ := ih best
        rcases l1 with _ | ⟨a, l1t⟩
        · rw [List.nil_append] at heq
          have hr : (pyMaxByFst (score_plan best, best)
              (xs.map (fun q => (score_plan q, q)))).2 = best :=
            (List.cons.injEq _ _ _ _ ▸ heq : _ ∧ _).1.symm
          refine ⟨[], x :: xs, ?_, by simp, hbestle, ?_⟩
          · rw [List.nil_append, hr]
          · intro y hy
            rcases List.mem_cons.mp hy with h | h
            · subst h
              rw [hr]
              exact le_of_not_lt hgt
            · exact hxsle y h
        · rw [List.cons_append] at heq
          have ha : a = best := ((List.cons.injEq _ _ _ _ ▸ heq : _ ∧ _).1).symm
          have hxs : xs = l1t ++ (pyMaxByFst (score_plan best, best)
              (xs.map (fun q => (score_plan q, q)))).2 :: l2 :=
            ((List.cons.injEq _ _ _ _ ▸ heq : _ ∧ _).2)
          refine ⟨best :: x :: l1t, l2, ?_, ?_, hbestle, ?_⟩
          · rw [List.cons_append, List.cons_append, ← hxs]
          · intro y hy
            have hbestlt : score_plan best <
                score_plan (pyMaxByFst (score_plan best, best)
                  (xs.map (fun q => (score_plan q, q)))).2 := by
              have := hlt a (List.mem_cons_self a l1t)
              rw [ha] at this
              exact this
            rcases List.mem_cons.mp hy with h | h
            · subst h; exact hbestlt
            · rcases List.mem_cons.mp h with h2 | h2
              · subst h2
                exact lt_of_le_of_lt (le_of_not_lt hgt) hbestlt
              · exact hlt y (List.mem_cons_of_mem a h2)
          · intro y hy
            rcases List.mem_cons.mp hy with h | h
            · subst h
              exact le_trans (le_of_not_lt hgt) hbestle
            · exact hxsle y h

/-- C8: scoring is the deterministic formula of the spec;
`_select_best_plan` raises exactly on an empty candidate list and otherwise
returns the first candidate attaining the maximum score (stable max over
the candidate order). -/
theorem C8_select_best_plan_spec (plans : List TaskPlan) :
    (∀ plan, score_plan plan = scoreSpec plan) ∧
    select_best_plan [] = .error "No candidate plans generated." ∧
    (∀ q, select_best_plan plans = .ok q →
      ∃ l1 l2, plans = l1 ++ q :: l2 ∧
        (∀ x ∈ l1, score_plan x < score_plan q) ∧
        (∀ x ∈ plans, score_plan x ≤ score_plan q)) := by
  refine ⟨score_plan_eq_spec, rfl, ?_⟩
  intro q hq
  cases plans with
  | nil => cases hq
  | cons p ps =>
      have hq2 : (pyMaxByFst (score_plan p, p)
          (ps.map (fun r => (score_plan r, r)))).2 = q := by
        unfold select_best_plan at hq
        cases hq
        rfl
      obtain ⟨l1, l2, heq, hlt, hple, hpsle⟩ := pyMaxByFst_first_argmax ps p
      rw [hq2] at heq hlt hple hpsle
      refine ⟨l1, l2, heq, hlt, ?_⟩
      intro y hy
      rcases List.mem_cons.mp hy with h | h
      · subst h; exact hple
      · exact hpsle y h

/-- A low-scoring candidate (generation only). -/
def planLow : TaskPlan := ⟨"t", [subGen]⟩

/-- A high-scoring candidate (search and persistence present). -/
def planHigh : TaskPlan :=
  ⟨"t", [{ id := "s", description := "search", tool := .search_in_files },
         { id := "v", description := "save", tool := .save_output }]⟩

/-- Witness for C8: on a concrete two-candidate list the higher scorer is
selected and satisfies the stable-argmax characterisation. -/
theorem C8_select_best_plan_spec_witness :
    ∃ l1 l2, [planLow, planHigh] = l1 ++ planHigh :: l2 ∧
      (∀ x ∈ l1, score_plan x < score_plan planHigh) ∧
      (∀ x ∈ [planLow, planHigh], score_plan x ≤ score_plan planHigh) :=
  (C8_select_best_plan_spec [planLow, planHigh]).2.2 planHigh rfl

/-! ## Decimal rendering and parsing lemmas (for claim C9) -/

theorem digitChar_toNat (d : Nat) (h : d < 10) :
    (digitChar d).toNat = 48 + d := by
  interval_cases d <;> decide

theorem natReprChars_digits (n : Nat) :
    ∀ c ∈ natReprChars n, 48 ≤ c.toNat ∧ c.toNat ≤ 57 := by
  induction n using Nat.strong_induction_on with
  | _ n ih =>
      rw [natReprChars]
      split
      · intro c hc
        rcases List.mem_singleton.mp hc with rfl
        rw [digitChar_toNat _ (by omega)]
        omega
      · intro c hc
        rcases List.mem_append.mp hc with h | h
        · exact ih (n / 10) (Nat.div_lt_self (by omega) (by omega)) c h
        · rcases List.mem_singleton.mp h with rfl
          rw [digitChar_toNat _ (Nat.mod_lt _ (by omega))]
          have := Nat.mod_lt n (show 0 < 10 by omega)
          omega

theorem natReprChars_ne_nil (n : Nat) : natReprChars n ≠ [] := by
  rw [natReprChars]
  split
  · simp
  · simp

/-- Parsing a decimal rendering appended to an accumulator. -/
theorem natReprChars_foldl (n : Nat) : ∀ a : Nat,
    (natReprChars n).foldl (fun acc c => acc * 10 + (c.toNat - 48)) a =
      a * 10 ^ (natReprChars n).length + n := by
  induction n using Nat.strong_induction_on with
  | _ n ih =>
      intro a
      rw [natReprChars]
      split
      · next h =>
          simp [List.foldl, digitChar_toNat n h]
      · next h =>
          rw [List.foldl_append, List.length_append,
            ih (n / 10) (Nat.div_lt_self (by omega) (by omega)) a]
          simp only [List.foldl, List.length_cons, List.length_nil]
          rw [digitChar_toNat _ (Nat.mod_lt _ (by omega))]
          have hmod := Nat.mod_lt n (show 0 < 10 by omega)
          have hdm := Nat.div_add_mod n 10
          rw [pow_succ]
          ring_nf
          omega

theorem strToNat_natRepr (n : Nat) : strToNat (natRepr n) = n := by
  unfold strToNat natRepr
  show (natReprChars n).foldl _ 0 = n
  rw [natReprChars_foldl n 0]
  simp

theorem isDigits_natRepr (n : Nat) : isDigits (natRepr n) = true := by
  unfold isDigits natRepr
  refine (Bool.and_eq_true _ _).mpr ⟨?_, ?_⟩
  · have := natReprChars_ne_nil n
    simpa [String.ext_iff] using this
  · rw [List.all_eq_true]
    intro c hc
    have := natReprChars_digits n c hc
    simp only [Bool.and_eq_true, decide_eq_true_eq]
    omega

theorem natRepr_inj (m n : Nat) (h : natRepr m = natRepr n) : m = n := by
  have := congrArg strToNat h
  rwa [strToNat_natRepr, strToNat_natRepr] at this

/-! ## String-splitting lemmas (for claim C9) -/

theorem charsStart_self_append (p rest : List Char) :
    charsStart p (p ++ rest) = true := by
  induction p with
  | nil => rfl
  | cons a as ih => simp [charsStart, ih]

theorem strStarts_key (label tail : String) :
    strStarts (label ++ "#" ++ tail) (label ++ "#") = true := by
  unfold strStarts
  have hdata : (label ++ "#" ++ tail).data =
      (label ++ "#").data ++ tail.data := by
    simp
  rw [hdata]
  exact charsStart_self_append _ _

theorem revTakeUntilHash_no_hash (l rest : List Char)
    (h : ∀ c ∈ l, c ≠ '#') :
    revTakeUntilHash (l ++ '#' :: rest) = l := by
  induction l with
  | nil => simp [revTakeUntilHash]
  | cons a as ih =>
      have ha : a ≠ '#' := h a (List.mem_cons_self a as)
      simp only [List.cons_append, revTakeUntilHash, if_neg ha,
        List.append_eq]
      rw [ih (fun c hc => h c (List.mem_cons_of_mem a hc))]

theorem afterLastHash_key (label : String) (n : Nat) :
    afterLastHash (label ++ "#" ++ natRepr n) = natRepr n := by
  unfold afterLastHash
  have hdata : (label ++ "#" ++ natRepr n).data =
      label.data ++ '#' :: (natReprChars n) := by
    simp [natRepr]
  rw [hdata]
  have hrev : (label.data ++ '#' :: natReprChars n).reverse =
      (natReprChars n).reverse ++ '#' :: label.data.reverse := by
    simp
  have hno : ∀ c ∈ (natReprChars n).reverse, c ≠ '#' := by
    intro c hc
    have hd := natReprChars_digits n c (List.mem_reverse.mp hc)
    intro hceq
    subst hceq
    simp at hd
  rw [hrev, revTakeUntilHash_no_hash _ _ hno]
  simp [natRepr]

theorem key_ne_of_index_ne (label : String) (m n : Nat) (h : m ≠ n) :
    label ++ "#" ++ natRepr m ≠ label ++ "#" ++ natRepr n := by
  intro heq
  apply h
  apply natRepr_inj
  have h2 := congrArg String.data heq
  simp only [String.data_append] at h2
  have h3 := List.append_cancel_left h2
  exact String.ext h3

/-! ## Dict and max-fold lemmas (for claim C9) -/

theorem dictGet_insert_self {α : Type} (d : List (String × α)) (k : String)
    (v : α) : dictGet (dictInsert d k v) k = some v := by
  induction d with
  | nil => simp [dictInsert, dictGet]
  | cons kv rest ih =>
      by_cases hk : kv.1 = k
      · simp [dictInsert, hk, dictGet]
      · simp [dictInsert, hk, dictGet, ih]

theorem dictGet_insert_ne {α : Type} (d : List (String × α))
    (k k' : String) (v : α) (h : k' ≠ k) :
    dictGet (dictInsert d k v) k' = dictGet d k' := by
  induction d with
  | nil => simp [dictInsert, dictGet, Ne.symm h]
  | cons kv rest ih =>
      by_cases hk : kv.1 = k
      · subst hk
        simp [dictInsert, dictGet, h, Ne.symm h]
      · simp only [dictInsert, if_neg hk, dictGet]
        by_cases hk' : kv.1 = k'
        · simp [hk']
        · simp [hk', ih]

theorem mem_dictKeys_insert {α : Type} (d : List (String × α)) (k : String)
    (v : α) : k ∈ dictKeys (dictInsert d k v) := by
  induction d with
  | nil => simp [dictInsert, dictKeys]
  | cons kv rest ih =>
      by_cases hk : kv.1 = k
      · simp [dictInsert, hk, dictKeys]
      · simp only [dictInsert, if_neg hk, dictKeys, List.map_cons]
        exact List.mem_cons_of_mem _ ih

theorem le_foldl_max (l : List Nat) : ∀ a : Nat,
    (a ≤ l.foldl max a) ∧ ∀ x ∈ l, x ≤ l.foldl max a := by
  induction l with
  | nil => intro a; exact ⟨le_refl _, by simp⟩
  | cons y ys ih =>
      intro a
      obtain ⟨h1, h2⟩ := ih (max a y)
      refine ⟨le_trans (le_max_left a y) h1, ?_⟩
      intro x hx
      rcases List.mem_cons.mp hx with h | h
      · rw [h]
        exact le_trans (le_max_right a y) h1
      · exact h2 x h

theorem mem_le_pyMaxNat (l : List Nat) (x : Nat) (h : x ∈ l) :
    x ≤ pyMaxNat l := by
  cases l with
  | nil => cases h
  | cons y ys =>
      unfold pyMaxNat
      rcases List.mem_cons.mp h with h1 | h1
      · subst h1
        exact (le_foldl_max ys x).1
      · exact (le_foldl_max ys y).2 x h1

theorem mem_existingIndices (storage : Storage) (label k : String)
    (hk : k ∈ dictKeys storage)
    (h1 : strStarts k (label ++ "#") = true)
    (h2 : isDigits (afterLastHash k) = true) :
    strToNat (afterLastHash k) ∈ existingIndices storage label := by
  unfold existingIndices
  rw [List.mem_filterMap]
  exact ⟨k, hk, by rw [h1, h2]; simp⟩

/-! ## Claim C9: repeated saves with one label -/

/-- C9: two `save_output` calls with the same label return two distinct
keys, both of the form `label#index` with the second index strictly larger
(the per-label suffix increases monotonically), both marked `stored: true`,
and both resolvable in the final `get_storage_snapshot`. -/
theorem C9_save_output_unique (storage : Storage) (p1 p2 : Payload)
    (hlab : p1.label = p2.label) :
    (save_output storage p1).1.stored = true ∧
    (save_output (save_output storage p1).2 p2).1.stored = true ∧
    (save_output storage p1).1.key ≠
      (save_output (save_output storage p1).2 p2).1.key ∧
    (∃ n1 n2 : Nat,
      (save_output storage p1).1.key =
        effectiveLabel p1.label ++ "#" ++ natRepr n1 ∧
      (save_output (save_output storage p1).2 p2).1.key =
        effectiveLabel p1.label ++ "#" ++ natRepr n2 ∧
      n1 < n2) ∧
    (dictGet
      (get_storage_snapshot (save_output (save_output storage p1).2 p2).2)
      (save_output storage p1).1.key).isSome = true ∧
    (dictGet
      (get_storage_snapshot (save_output (save_output storage p1).2 p2).2)
      (save_output (save_output storage p1).2 p2).1.key).isSome = true := by
  set L := effectiveLabel p1.label with hL
  have hL2 : effectiveLabel p2.label = L := by rw [← hlab]
  set n1 := nextIndex storage L with hn1
  set key1 := L ++ "#" ++ natRepr n1 with hkey1
  have hsave1 : save_output storage p1 =
      (⟨key1, true⟩, dictInsert storage key1 p1) := rfl
  set s1 := dictInsert storage key1 p1 with hs1
  set n2 := nextIndex s1 L with hn2
  set key2 := L ++ "#" ++ natRepr n2 with hkey2
  have hsave2 : save_output s1 p2 =
      (⟨key2, true⟩, dictInsert s1 key2 p2) := by
    unfold save_output
    rw [hL2]
  have hmem1 : n1 ∈ existingIndices s1 L := by
    have h := mem_existingIndices s1 L key1
      (mem_dictKeys_insert storage key1 p1)
      (by rw [hkey1]; exact strStarts_key L (natRepr n1))
      (by rw [hkey1, afterLastHash_key]; exact isDigits_natRepr n1)
    rw [hkey1, afterLastHash_key, strToNat_natRepr] at h
    exact h
  have hn1n2 : n1 < n2 := by
    rw [hn2]
    unfold nextIndex
    have hne : ¬(existingIndices s1 L).isEmpty := by
      rw [List.isEmpty_iff]
      intro hnil
      rw [hnil] at hmem1
      cases hmem1
    rw [if_neg hne]
    have := mem_le_pyMaxNat _ _ hmem1
    omega
  have hkeyne : key1 ≠ key2 := by
    rw [hkey1, hkey2]
    exact key_ne_of_index_ne L n1 n2 (Nat.ne_of_lt hn1n2)
  rw [hsave1]
  simp only []
  rw [hsave2]
  simp only [get_storage_snapshot]
  refine ⟨by trivial, by trivial, hkeyne, ⟨n1, n2, rfl, rfl, hn1n2⟩, ?_, ?_⟩
  · rw [dictGet_insert_ne _ _ _ _ hkeyne, dictGet_insert_self]
    rfl
  · rw [dictGet_insert_self]
    rfl

/-- A concrete persistence payload with the label `"report"`. -/
def payloadReport (sid : String) : Payload :=
  { task := none
    subtask_id := sid
    description := "d"
    previous_outputs := []
    label := some "report" }

/-- Witness for C9: two saves with the label `"report"` on an empty store. -/
theorem C9_save_output_unique_witness :
    ((payloadReport "a").label = (payloadReport "b").label) ∧
    (save_output [] (payloadReport "a")).1.stored = true :=
  ⟨rfl,
    (C9_save_output_unique [] (payloadReport "a") (payloadReport "b")
      rfl).1⟩

/-! ## Claim C2: search retry exhaustion and the fallback guard -/

/-- The search self-check verdict on a zero-result output. -/
theorem self_check_zero_results (sub : Subtask) (outZ : Output)
    (hsub : sub.tool = .search_in_files)
    (hz : (dictGet outZ "results").getD .noneV = .listV []) :
    self_check sub outZ = ⟨false, true, "No search results were returned."⟩ := by
  unfold self_check
  rw [hsub]
  simp [hz, pyTruthy, pyLen]

/-- An `allow_retry=False` attempt of a registered search tool that always
returns zero results ends as a failure (and, per
`execAttempt_false_entries_fb`, without a fallback). -/
theorem execAttempt_zero_results_false (env : ExecEnv) (sub : Subtask)
    (K : Memory → TaskState → ExecOut) (mem : Memory) (st : TaskState)
    (f : ToolFn) (outZ : Output)
    (hsub : sub.tool = .search_in_files)
    (hreg : env.registry sub.tool = some f)
    (hf : ∀ p, f p = .ok outZ)
    (hz : (dictGet outZ "results").getD .noneV = .listV []) :
    (execAttempt env sub false K mem st).result.status = .failed := by
  have htool : choose_tool env.registry sub mem st = sub.tool :=
    choose_tool_total _ _ _ _ (by rw [hreg]; rfl)
  have hchk := self_check_zero_results sub outZ hsub hz
  rw [hsub] at hreg
  unfold execAttempt
  simp [htool, hreg, hf, hchk, choose_fallback, hsub]

/-- An `allow_retry=True` attempt of a registered search tool that always
returns zero results takes the retry branch once and otherwise returns the
retried attempt's outcome. -/
theorem execAttempt_zero_results_true (env : ExecEnv) (sub : Subtask)
    (K : Memory → TaskState → ExecOut) (mem : Memory) (st : TaskState)
    (f : ToolFn) (outZ : Output)
    (hsub : sub.tool = .search_in_files)
    (hreg : env.registry sub.tool = some f)
    (hf : ∀ p, f p = .ok outZ)
    (hz : (dictGet outZ "results").getD .noneV = .listV [])
    (hK1 : ∀ m s, (K m s).entries = 1)
    (hK2 : ∀ m s, (K m s).fallbackInvoked = false)
    (hK3 : ∀ m s, (K m s).result.status = .failed) :
    (execAttempt env sub true K mem st).entries = 2 ∧
    (execAttempt env sub true K mem st).fallbackInvoked = false ∧
    (execAttempt env sub true K mem st).result.status = .failed := by
  have htool : choose_tool env.registry sub mem st = sub.tool :=
    choose_tool_total _ _ _ _ (by rw [hreg]; rfl)
  have hchk := self_check_zero_results sub outZ hsub hz
  rw [hsub] at hreg
  unfold execAttempt
  simp [htool, hreg, hf, hchk, hK1, hK2, hK3, hsub]

/-- C2 as the code actually behaves (amended claim): a search subtask whose
registered tool always returns zero results is retried exactly once (the
body runs twice); after the retried attempt's self-check also fails the
subtask terminates failed and **no** fallback tool is attempted, because the
fallback branch requires `allow_retry` to still be true and the retried
attempt runs with `allow_retry=False`. -/
theorem C2_retry_exhaustion_no_fallback (env : ExecEnv) (sub : Subtask)
    (mem : Memory) (st : TaskState) (f : ToolFn) (outZ : Output)
    (hsub : sub.tool = .search_in_files)
    (hreg : env.registry sub.tool = some f)
    (hf : ∀ p, f p = .ok outZ)
    (hz : (dictGet outZ "results").getD .noneV = .listV []) :
    (execute_subtask env sub true mem st).entries = 2 ∧
    (execute_subtask env sub true mem st).fallbackInvoked = false ∧
    (execute_subtask env sub true mem st).result.status = .failed := by
  unfold execute_subtask
  exact execAttempt_zero_results_true env sub _ mem st f outZ hsub hreg hf hz
    (fun m s => (execAttempt_false_entries_fb env sub _ m s).1)
    (fun m s => (execAttempt_false_entries_fb env sub _ m s).2)
    (fun m s =>
      execAttempt_zero_results_false env sub _ m s f outZ hsub hreg hf hz)

/-- An environment registering every tool, with the search tool returning
zero results. -/
def searchEnv : ExecEnv :=
  ⟨fun t => if t = .search_in_files then some emptySearchTool else some genTool,
    fun _ _ _ _ => ""⟩

/-- A search subtask. -/
def subSearch : Subtask :=
  { id := "s3", description := "Search for sources", tool := .search_in_files }

/-- Counterexample to C2 as stated: on a concrete zero-result search run the
single retry is exhausted (the body runs twice), the generation-class
fallback is configured for search and registered, and yet no fallback tool
is ever invoked — the subtask just terminates failed with the search
self-check error. -/
theorem C2_counterexample :
    (searchEnv.registry .generate_text).isSome = true ∧
    choose_fallback .search_in_files subSearch {} {} = some .generate_text ∧
    (execute_subtask searchEnv subSearch true {} {}).entries = 2 ∧
    (execute_subtask searchEnv subSearch true {} {}).fallbackInvoked = false ∧
    (execute_subtask searchEnv subSearch true {} {}).result.status = .failed ∧
    (execute_subtask searchEnv subSearch true {} {}).result.error =
      some "Self-check failed: No search results were returned." :=
  ⟨rfl, rfl, rfl, rfl, rfl, rfl⟩

/-- Witness for the amended C2 at the same concrete inputs. -/
theorem C2_retry_exhaustion_no_fallback_witness :
    (subSearch.tool = ToolName.search_in_files) ∧
    (execute_subtask searchEnv subSearch true {} {}).entries = 2 :=
  ⟨rfl,
    (C2_retry_exhaustion_no_fallback searchEnv subSearch {} {}
      emptySearchTool [("results", .listV [])] rfl rfl (fun _ => rfl)
      rfl).1⟩

/-! ## Claim C1: the overwritten fallback success -/

/-- The registry for the C1 scenario: search and generation registered, the
transform and persistence tools absent. -/
def c1Registry : ToolName → Option ToolFn := fun t =>
  match t with
  | .search_in_files => some emptySearchTool
  | .generate_text => some genTool
  | _ => none

/-- The C1 environment. -/
def c1Env : ExecEnv := ⟨c1Registry, fun _ _ _ _ => ""⟩

/-- A transform-declared subtask whose description routes to search when the
transform tool is unregistered. -/
def subModify : Subtask :=
  { id := "m1", description := "search for data", tool := .modify_data }

/-- C1 evidence: on a concrete run the fallback tool is invoked and its
re-run self-check succeeds, yet the returned (and recorded) result has
status `failed` with the error text built from the **successful** fallback
check's reasoning — lines 262-263 of `executor.py` unconditionally
overwrite the success that lines 257-259 just wrote. -/
theorem C1_fallback_success_overwritten :
    (self_check { subModify with tool := .generate_text }
      [("text", PyVal.str "Generated: ok")]).success = true ∧
    (execute_subtask c1Env subModify true {} {}).fallbackInvoked = true ∧
    (execute_subtask c1Env subModify true {} {}).result.output =
      [("text", PyVal.str "Generated: ok")] ∧
    (execute_subtask c1Env subModify true {} {}).result.status = .failed ∧
    (execute_subtask c1Env subModify true {} {}).result.error =
      some "Self-check failed: Output contains generated text." ∧
    (execute_subtask c1Env subModify true {} {}).st.subtask_results.map
      (fun r => r.status) = [.failed] :=
  ⟨rfl, rfl, rfl, rfl, rfl, rfl⟩

end AgentEngine
